import Mathlib

/-!
Verification of the simulation/render core of SpaceHuggers (LittleJS v0.74,
`engine.js`): the fixed-timestep frame scheduler (`engineUpdate`), the
hierarchical object registry (`engineUpdateObjects`), the spatial query
(`forEachObject`), and the render ordering pass.

The JavaScript source is embedded shallowly: machine time values are exact
rationals (the spec states simulation time is "exact rational, no float
drift"), the mutable globals (`frameTimeBufferMS`, `frame`, `paused`,
`engineObjects`, `engineCollideObjects`, the per-object `destroyed` flags)
become explicit state records threaded through the functions, and game-side
update callbacks become an explicit function argument.
-/

namespace SpaceHuggers

/-! ### FrameScheduler (engine.js, `engineUpdate`)

Source globals: `const FPS = 60`; `let frame=0, time=0, paused=0,
frameTimeBufferMS=0`. The release build has `debug = 0`, so the debug
time-scale multiplier (`keyIsDown(107) ? 5 : ...`) leaves the wall delta
unchanged and is omitted. Rendering, input and canvas work inside the frame
callback have no effect on the scheduler state and are outside the model. -/

/-- Source: `const FPS = 60`. -/
def FPS : ℕ := 60

/-- One fixed step of wall time in milliseconds, the `1e3 / FPS` subtracted by
the step loop in `engineUpdate`. -/
def stepMS : ℚ := 1000 / (FPS : ℚ)

theorem stepMS_pos : 0 < stepMS := by norm_num [stepMS, FPS]

theorem stepMS_eq : stepMS = 50 / 3 := by norm_num [stepMS, FPS]

/-- Scheduler state: the wall-time accumulator `frameTimeBufferMS`, the
simulation tick counter `frame` (incremented once per fixed step by
`engineUpdateObjects`, with `time = frame / FPS` derived), and the `paused`
flag. -/
structure Sched where
  frameTimeBufferMS : ℚ
  frame : ℕ
  paused : Bool
deriving DecidableEq

/-- Source: `for (;frameTimeBufferMS >= 0; frameTimeBufferMS -= 1e3 / FPS)`.
Returns the number of loop iterations (fixed steps executed, each of which
runs `appUpdate(); engineUpdateObjects(); appUpdatePost(); debugUpdate()`)
and the final accumulator value. -/
def stepLoop (b : ℚ) : ℕ × ℚ :=
  if h : 0 ≤ b then
    let p := stepLoop (b - stepMS)
    (p.1 + 1, p.2)
  else
    (0, b)
termination_by (⌊b / stepMS⌋ + 1).toNat
decreasing_by
  have hs : (0:ℚ) < stepMS := stepMS_pos
  have hfloor : ⌊(b - stepMS) / stepMS⌋ = ⌊b / stepMS⌋ - 1 := by
    rw [sub_div, div_self (ne_of_gt hs)]
    exact Int.floor_sub_one _
  have hnn : (0:ℤ) ≤ ⌊b / stepMS⌋ :=
    Int.floor_nonneg.mpr (div_nonneg h (le_of_lt hs))
  rw [hfloor]
  omega

theorem stepLoop_of_neg {b : ℚ} (h : b < 0) : stepLoop b = (0, b) := by
  rw [stepLoop]
  simp [not_le.mpr h]

theorem stepLoop_of_nonneg {b : ℚ} (h : 0 ≤ b) :
    stepLoop b = ((stepLoop (b - stepMS)).1 + 1, (stepLoop (b - stepMS)).2) := by
  rw [stepLoop]
  simp [h]

/-- The loop's iteration count is bounded by its termination measure. -/
theorem stepLoop_count_le : ∀ (n : ℕ) (b : ℚ), (⌊b / stepMS⌋ + 1).toNat ≤ n →
    (stepLoop b).1 ≤ n := by
  intro n
  induction n with
  | zero =>
    intro b hb
    have hneg : b < 0 := by
      by_contra hc
      have h0 : (0:ℚ) ≤ b := not_lt.mp hc
      have : (0:ℤ) ≤ ⌊b / stepMS⌋ :=
        Int.floor_nonneg.mpr (div_nonneg h0 (le_of_lt stepMS_pos))
      omega
    rw [stepLoop_of_neg hneg]
  | succ n ih =>
    intro b hb
    by_cases h0 : 0 ≤ b
    · rw [stepLoop_of_nonneg h0]
      have hfloor : ⌊(b - stepMS) / stepMS⌋ = ⌊b / stepMS⌋ - 1 := by
        rw [sub_div, div_self (ne_of_gt stepMS_pos)]
        exact Int.floor_sub_one _
      have : (⌊(b - stepMS) / stepMS⌋ + 1).toNat ≤ n := by
        rw [hfloor]; omega
      have := ih (b - stepMS) this
      omega
    · rw [stepLoop_of_neg (not_le.mp h0)]
      exact Nat.zero_le _

theorem stepLoop_zero : stepLoop 0 = (1, -(50/3)) := by
  rw [stepLoop_of_nonneg le_rfl]
  rw [stepLoop_of_neg (by rw [stepMS_eq]; norm_num)]
  rw [stepMS_eq]; norm_num

/-- One invocation of the `requestAnimationFrame` callback `engineUpdate`,
restricted to the scheduler state it reads and writes.  Mirrors, in source
order: `if (!paused) frameTimeBufferMS += frameTimeDeltaMS;` then the time
delta smoothing `if (frameTimeBufferMS < 0 && frameTimeBufferMS > -9)
{ deltaSmooth = frameTimeBufferMS; frameTimeBufferMS = 0; }`, the clamp
`frameTimeBufferMS = min(frameTimeBufferMS, 50);`, the fixed-step loop, and
finally `frameTimeBufferMS += deltaSmooth;`.  Each loop iteration increments
the tick counter (`time = ++frame / FPS` in `engineUpdateObjects`). -/
def engineOnFrame (wallDeltaMS : ℚ) (s : Sched) : Sched :=
  let buf0 := if s.paused then s.frameTimeBufferMS else s.frameTimeBufferMS + wallDeltaMS
  let smooth := if buf0 < 0 ∧ -9 < buf0 then buf0 else 0
  let buf1 := if buf0 < 0 ∧ -9 < buf0 then 0 else buf0
  let buf2 := min buf1 50
  let p := stepLoop buf2
  { frameTimeBufferMS := p.2 + smooth, frame := s.frame + p.1, paused := s.paused }

/-- Number of fixed steps executed by a single `engineOnFrame` invocation. -/
def stepsOf (wallDeltaMS : ℚ) (s : Sched) : ℕ :=
  (engineOnFrame wallDeltaMS s).frame - s.frame

theorem stepsOf_eq (wallDeltaMS : ℚ) (s : Sched) :
    stepsOf wallDeltaMS s =
      (stepLoop (min (let buf0 := if s.paused then s.frameTimeBufferMS
                        else s.frameTimeBufferMS + wallDeltaMS;
                      if buf0 < 0 ∧ -9 < buf0 then 0 else buf0) 50)).1 := by
  simp [stepsOf, engineOnFrame]

/-- The state reached after `n` wall frames of exactly `1000/60` ms each,
starting from the engine's initial scheduler state. -/
def iterFrames : ℕ → Sched
  | 0 => ⟨0, 0, false⟩
  | n + 1 => engineOnFrame (1000 / 60) (iterFrames n)

/-! ### ObjectRegistry, SpatialQuery and RenderOrderingPass

An engine object is a record with `pos`, `size`, `renderOrder`, a `parent`
back-reference and an ordered `children` list; the registry keeps the flat
lists `engineObjects` and `engineCollideObjects`.  The object graph reachable
through `children` is, in any well-formed registry, a forest, so the
hierarchy is embedded as a rose tree; `hasParent` mirrors the truthiness of
`o.parent` tested by `o.parent || updateObject(o)`.  The mutable `destroyed`
flags live in a state `DSt` keyed by object identity, and the game-defined
`update()` bodies become one callback `upd : ℕ → DSt → DSt` (the traversal
reads nothing else that a callback can mutate). -/

/-- An engine object: identity, position, size, draw-order key, parent
truthiness, owned children. -/
inductive EObj : Type where
  | mk (oid : ℕ) (posX posY sizeX sizeY : ℚ) (renderOrder : ℤ)
       (hasParent : Bool) (children : List EObj)

/-- Object identity. -/
def EObj.oid : EObj → ℕ
  | .mk i _ _ _ _ _ _ _ => i

/-- The `o.pos.x` field. -/
def EObj.posX : EObj → ℚ
  | .mk _ x _ _ _ _ _ _ => x

/-- The `o.pos.y` field. -/
def EObj.posY : EObj → ℚ
  | .mk _ _ y _ _ _ _ _ => y

/-- The `o.size.x` field. -/
def EObj.sizeX : EObj → ℚ
  | .mk _ _ _ sx _ _ _ _ => sx

/-- The `o.size.y` field. -/
def EObj.sizeY : EObj → ℚ
  | .mk _ _ _ _ sy _ _ _ => sy

/-- The `o.renderOrder` draw key. -/
def EObj.renderOrder : EObj → ℤ
  | .mk _ _ _ _ _ r _ _ => r

/-- Truthiness of `o.parent`. -/
def EObj.hasParent : EObj → Bool
  | .mk _ _ _ _ _ _ p _ => p

/-- The ordered `o.children` list. -/
def EObj.children : EObj → List EObj
  | .mk _ _ _ _ _ _ _ cs => cs

/-- Dynamic state: the `destroyed` flag of each object identity. -/
def DSt : Type := ℕ → Bool

mutual

/-- Source (`engineUpdateObjects`): `const updateObject = (o) => { if
(!o.destroyed) { o.update(); for(const child of o.children)
updateObject(child); } }`.  Returns the state after the subtree visit and
the trace of object ids whose `update()` ran, in invocation order. -/
def updateObject (upd : ℕ → DSt → DSt) : EObj → DSt → DSt × List ℕ
  | .mk i _ _ _ _ _ _ cs, s =>
    if s i then (s, [])
    else
      let s1 := upd i s
      let p := updateChildren upd cs s1
      (p.1, i :: p.2)

/-- The `for(const child of o.children) updateObject(child)` loop. -/
def updateChildren (upd : ℕ → DSt → DSt) : List EObj → DSt → DSt × List ℕ
  | [], s => (s, [])
  | o :: os, s =>
    let p := updateObject upd o s
    let q := updateChildren upd os p.1
    (q.1, p.2 ++ q.2)

end

/-- Source: `for(const o of engineObjects) o.parent || updateObject(o);`. -/
def updateRoots (upd : ℕ → DSt → DSt) : List EObj → DSt → DSt × List ℕ
  | [], s => (s, [])
  | o :: os, s =>
    if o.hasParent then updateRoots upd os s
    else
      let p := updateObject upd o s
      let q := updateRoots upd os p.1
      (q.1, p.2 ++ q.2)

/-- Source (`engineUpdateObjects`): the root traversal followed by the sweep
`engineObjects = engineObjects.filter(o=>!o.destroyed);
engineCollideObjects = engineCollideObjects.filter(o=>!o.destroyed);`.
Returns the two swept collections, the post-traversal destroyed state, and
the update trace.  The trailing `time = ++frame / FPS` tick increment is the
per-step counter already modelled in `engineOnFrame`. -/
def engineUpdateObjects (upd : ℕ → DSt → DSt) (all collide : List EObj)
    (s : DSt) : (List EObj × List EObj) × (DSt × List ℕ) :=
  let p := updateRoots upd all s
  ((all.filter (fun o => ! p.1 o.oid), collide.filter (fun o => ! p.1 o.oid)), p)

/-- Modelled from the spec: `isOverlapping` is defined in the repository's
engine utilities file, which is not among the provided sources; only its
call site in `forEachObject` is.  Spec 4.3: "standard separating-axis AABB
overlap: overlap iff, on both axes, the distance between centers is less
than the sum of half-extents". -/
def isOverlapping (pAx pAy sAx sAy pBx pBy sBx sBy : ℚ) : Bool :=
  decide (|pAx - pBx| < (sAx + sBx) / 2) && decide (|pAy - pBy| < (sAy + sBy) / 2)

/-- Modelled from the spec: `Vector2.distanceSquared` is defined in the
repository's engine utilities file, which is not among the provided sources.
Spec 4.3: "squared distance from `position` to the entity's position". -/
def distanceSquared (ax ay bx cy : ℚ) : ℚ :=
  (ax - bx) ^ 2 + (ay - cy) ^ 2

/-- The JavaScript `size` argument of `forEachObject`, split by the dynamic
tests the source performs on it: `!size` (falsy: the default `0`,
`undefined`, `null`, `NaN`), `size.x != undefined` (a `Vector2` box), a
truthy number (radius), or any other truthy value — the latter reaches the
radius branch where `size**2` evaluates to `NaN`, so every comparison
`distanceSquared < NaN` is `false`. -/
inductive Region where
  | falsy
  | box (sx sy : ℚ)
  | num (r : ℚ)
  | otherTruthy

/-- The per-object visit condition of each `forEachObject` branch: the falsy
branch visits unconditionally, the box branch tests
`isOverlapping(pos, size, o.pos, o.size)`, the radius branch tests
`pos.distanceSquared(o.pos) < sizeSquared`, and a truthy non-box non-number
`size` makes `sizeSquared` `NaN`, failing every comparison. -/
def regionMatches (px py : ℚ) (r : Region) (o : EObj) : Bool :=
  match r with
  | .falsy => true
  | .box sx sy => isOverlapping px py sx sy o.posX o.posY o.sizeX o.sizeY
  | .num rad => decide (distanceSquared px py o.posX o.posY < rad ^ 2)
  | .otherTruthy => false

/-- Source: `function forEachObject(pos, size=0, callbackFunction=(o)=>1,
collideObjectsOnly=1)`: selects `engineCollideObjects` or `engineObjects`,
then runs the branch selected by `size` over the list in order.  The model
returns the list of objects passed to `callbackFunction`, in visit order. -/
def forEachObject (px py : ℚ) (r : Region) (all collide : List EObj)
    (collideObjectsOnly : Bool) : List EObj :=
  (if collideObjectsOnly then collide else all).filter (regionMatches px py r)

/-- The draw-order relation of the render pass comparator
`(a,b) => a.renderOrder - b.renderOrder`. -/
def roLE (a b : EObj) : Prop := a.renderOrder ≤ b.renderOrder

instance : DecidableRel roLE := fun a b => Int.decLe a.renderOrder b.renderOrder

instance : IsTotal EObj roLE := ⟨fun a b => Int.le_total a.renderOrder b.renderOrder⟩

instance : IsTrans EObj roLE := ⟨fun _ _ _ h1 h2 => Int.le_trans h1 h2⟩

/-- Source: `engineObjects.sort((a,b)=> a.renderOrder - b.renderOrder);`.
`Array.prototype.sort` sorts in place and is required to be stable by the
ECMAScript specification (ES2019); with this comparator it orders ascending
by `renderOrder`.  Embedded as a stable insertion sort. -/
def engineRenderSort (l : List EObj) : List EObj :=
  l.insertionSort roLE

/-- Source: `for(const o of engineObjects) o.destroyed || o.render();` — the
draw walk over the sorted list, skipping objects already flagged destroyed.
Returns the objects whose `render()` runs, in draw order. -/
def engineRenderDraw (s : DSt) (l : List EObj) : List EObj :=
  (engineRenderSort l).filter (fun o => ! s o.oid)

/-- The whole per-wall-frame render section acting on the registry: it sorts
`engineObjects` in place (the sorted list is the registry's `all` collection
from now on), leaves `engineCollideObjects` untouched, and draws the
non-destroyed objects in sorted order. -/
def engineRenderPass (s : DSt) (all collide : List EObj) :
    (List EObj × List EObj) × List EObj :=
  ((engineRenderSort all, collide), engineRenderDraw s all)

/-! ### Scheduler lemmas and claims -/

theorem stepLoop_fifty : stepLoop 50 = (4, -(50 / 3)) := by
  rw [stepLoop_of_nonneg (by norm_num)]
  rw [stepLoop_of_nonneg (by rw [stepMS_eq]; norm_num)]
  rw [stepLoop_of_nonneg (by rw [stepMS_eq]; norm_num)]
  rw [show (50 : ℚ) - stepMS - stepMS - stepMS = 0 by rw [stepMS_eq]; norm_num]
  rw [stepLoop_zero]

theorem stepLoop_stepMS : stepLoop stepMS = (2, -(50 / 3)) := by
  rw [stepLoop_of_nonneg (le_of_lt stepMS_pos), sub_self, stepLoop_zero]

theorem stepLoop_fifty_thirds : stepLoop (50 / 3) = (2, -(50 / 3)) := by
  have h := stepLoop_stepMS
  rw [stepMS_eq] at h
  exact h

/-- A paused frame whose carried-over accumulator is at most `-9` ms changes
nothing: the wall delta is not added, the smoothing branch does not fire
(its guard needs the accumulator above `-9`), the clamp is a no-op, and the
step loop exits immediately on a negative accumulator. -/
theorem engineOnFrame_paused_freeze (d : ℚ) (s : Sched) (hp : s.paused = true)
    (hb : s.frameTimeBufferMS ≤ -9) : engineOnFrame d s = s := by
  have hlt : s.frameTimeBufferMS < 0 := lt_of_le_of_lt hb (by norm_num)
  have hsmooth : ¬ (s.frameTimeBufferMS < 0 ∧ -9 < s.frameTimeBufferMS) := by
    intro h
    exact absurd hb (not_le.mpr h.2)
  have hmin : min s.frameTimeBufferMS 50 = s.frameTimeBufferMS :=
    min_eq_left (le_trans hb (by norm_num))
  simp only [engineOnFrame]
  rw [if_pos hp, if_neg hsmooth, if_neg hsmooth, hmin, stepLoop_of_neg hlt]
  simp

/-- Claim C2 counterexample: with the pause flag set and the startup
accumulator value `0` carried over, a wall frame of `16` ms executes one
fixed step (the loop guard `frameTimeBufferMS >= 0` runs a step at
accumulator exactly `0`), advancing the simulation tick counter from `0`
to `1` even though the wall delta was never added. -/
theorem paused_frame_fires_step :
    (engineOnFrame 16 ⟨0, 0, true⟩).frame = 1 ∧ ¬ (engineOnFrame 16 ⟨0, 0, true⟩).frame = 0 := by
  have h : (engineOnFrame 16 ⟨0, 0, true⟩).frame = 1 := by
    have hmin : min (0 : ℚ) 50 = 0 := by norm_num
    simp only [engineOnFrame]
    norm_num [hmin, stepLoop_zero]
  exact ⟨h, by omega⟩

/-- Claim C2 (amended): while paused the wall delta is never added to the
accumulator, and provided the carried-over accumulator is at most `-9` ms
(outside the smoothing window), any sequence of wall deltas produces zero
fixed steps and leaves the scheduler state — tick counter, hence simulation
time, and accumulator — entirely unchanged.  (A carryover in `(-9, 0]`,
including the startup value `0`, instead fires one last fixed step on the
first paused frame.) -/
theorem paused_accumulator_frozen (ds : List ℚ) (s : Sched)
    (hp : s.paused = true) (hb : s.frameTimeBufferMS ≤ -9) :
    ds.foldl (fun t d => engineOnFrame d t) s = s := by
  induction ds with
  | nil => rfl
  | cons d ds ih =>
    rw [List.foldl_cons, engineOnFrame_paused_freeze d s hp hb]
    exact ih

theorem paused_accumulator_frozen_witness :
    (Sched.mk (-10) 5 true).paused = true ∧ (Sched.mk (-10) 5 true).frameTimeBufferMS ≤ -9 ∧
      ([7, 3, -2] : List ℚ).foldl (fun t d => engineOnFrame d t) ⟨-10, 5, true⟩ = ⟨-10, 5, true⟩ :=
  ⟨rfl, by norm_num, paused_accumulator_frozen [7, 3, -2] ⟨-10, 5, true⟩ rfl (by norm_num)⟩

/-- Claim C3 counterexample: from the startup state, a single wall frame of
`50` ms (so the accumulator is exactly the `50` ms clamp ceiling when the
step loop starts) executes `4` fixed steps, exceeding the claimed bound
`ceil(50 / (1000/60)) = 3`: the loop guard is `>= 0`, so the accumulator
values `50, 50 - 50/3, 50 - 100/3, 0` each admit a step. -/
theorem clamped_frame_runs_four_steps :
    stepsOf 50 ⟨0, 0, false⟩ = 4 ∧ ¬ stepsOf 50 ⟨0, 0, false⟩ ≤ 3 := by
  have h : stepsOf 50 ⟨0, 0, false⟩ = 4 := by
    have hmin : min (50 : ℚ) 50 = 50 := by norm_num
    rw [stepsOf_eq]
    norm_num [hmin, stepLoop_fifty]
  exact ⟨h, by omega⟩

/-- Claim C3 (amended): for any single `engineOnFrame` invocation, with any
wall delta and any prior accumulator value, the number of fixed steps
executed never exceeds `floor(clampCeiling / stepDuration) + 1 =
floor(50 / (1000/60)) + 1 = 4`; the extra unit beyond the claimed `3` comes
from the `>= 0` loop guard, which fires once more when the clamped
accumulator is exactly `50` ms. -/
theorem steps_per_frame_le_four (d : ℚ) (s : Sched) : stepsOf d s ≤ 4 := by
  rw [stepsOf_eq]
  apply stepLoop_count_le
  have hle : min (if (if s.paused = true then s.frameTimeBufferMS
      else s.frameTimeBufferMS + d) < 0 ∧
        -9 < (if s.paused = true then s.frameTimeBufferMS else s.frameTimeBufferMS + d)
      then 0 else if s.paused = true then s.frameTimeBufferMS
        else s.frameTimeBufferMS + d) 50 ≤ 50 := min_le_right _ _
  have hdiv := (div_le_div_iff_of_pos_right stepMS_pos).mpr hle
  have h50 : (50 : ℚ) / stepMS = 3 := by rw [stepMS_eq]; norm_num
  have hfloor := Int.floor_le_floor (α := ℚ) (le_trans hdiv (le_of_eq h50))
  have h3 : ⌊(3 : ℚ)⌋ = 3 := by norm_num
  simp only at hfloor ⊢
  omega

theorem steps_per_frame_le_four_witness : stepsOf 1000 ⟨0, 0, false⟩ ≤ 4 :=
  steps_per_frame_le_four 1000 ⟨0, 0, false⟩

/-- Invariant behind claim C8: driving the scheduler from startup with wall
frames of exactly `1000/60` ms, every state from the first frame onward has
accumulator exactly `-(50/3)` and tick counter `n + 1` after `n` frames (the
first frame fires two steps — the guard `>= 0` runs a step at accumulator
exactly `0` — and each later frame exactly one). -/
theorem iterFrames_invariant : ∀ n : ℕ, 1 ≤ n → iterFrames n = ⟨-(50 / 3), n + 1, false⟩ := by
  intro n hn
  induction n with
  | zero => omega
  | succ m ih =>
    by_cases hm : 1 ≤ m
    · rw [iterFrames, ih hm]
      have hd : (1000 : ℚ) / 60 = 50 / 3 := by norm_num
      have hbuf : -(50 / 3 : ℚ) + 1000 / 60 = 0 := by norm_num
      have hmin : min (0 : ℚ) 50 = 0 := by norm_num
      simp only [engineOnFrame]
      norm_num [hbuf, hmin, stepLoop_zero]
    · have hm0 : m = 0 := by omega
      subst hm0
      show engineOnFrame (1000 / 60) ⟨0, 0, false⟩ = _
      have hmin : min (50 / 3 : ℚ) 50 = 50 / 3 := min_eq_left (by norm_num)
      simp only [engineOnFrame]
      norm_num [hmin, stepLoop_fifty_thirds]

/-- Claim C8: with `fixedRate = 60` and a repeating wall delta of exactly
`1000/60` ms, in exact rational arithmetic, every wall frame after the first
fires exactly one fixed step — after `n ≥ 1` frames the tick counter is
exactly `n + 1`, so there is no cumulative drift over arbitrarily many
frames (the smoothing branch never needs to fire on this cadence). -/
theorem sixty_hz_lockstep (n : ℕ) (hn : 1 ≤ n) :
    (iterFrames n).frame = n + 1 ∧
      (iterFrames (n + 1)).frame = (iterFrames n).frame + 1 := by
  have h1 := iterFrames_invariant n hn
  have h2 := iterFrames_invariant (n + 1) (by omega)
  rw [h1, h2]
  exact ⟨rfl, rfl⟩

theorem sixty_hz_lockstep_witness :
    1 ≤ 9999 ∧ ((iterFrames 9999).frame = 9999 + 1 ∧
      (iterFrames (9999 + 1)).frame = (iterFrames 9999).frame + 1) :=
  ⟨by omega, sixty_hz_lockstep 9999 (by omega)⟩

/-! ### Registry, render and query lemmas and claims -/

/-- Stability of the render sort: filtering by any predicate that only holds
within one draw-order tier commutes with the sort, so equal keys keep their
prior relative order. -/
theorem engineRenderSort_filter_stable (l : List EObj) (p : EObj → Bool)
    (hp : ∀ a b, p a = true → p b = true → roLE a b) :
    (engineRenderSort l).filter p = l.filter p := by
  have h1 : (l.filter p).Sublist l := List.filter_sublist l
  have hpw : (l.filter p).Pairwise roLE :=
    List.pairwise_of_forall_mem_list (fun a ha b hb =>
      hp a b (List.mem_filter.mp ha).2 (List.mem_filter.mp hb).2)
  have h2 : (l.filter p).Sublist (engineRenderSort l) :=
    List.sublist_insertionSort hpw h1
  have h3 : (l.filter p).filter p = l.filter p :=
    List.filter_eq_self.mpr (fun a ha => (List.mem_filter.mp ha).2)
  have h4 : (l.filter p).Sublist ((engineRenderSort l).filter p) := by
    have h := List.Sublist.filter p h2
    rwa [h3] at h
  have h5 : ((engineRenderSort l).filter p).Perm (l.filter p) :=
    List.Perm.filter p (List.perm_insertionSort roLE l)
  exact (List.Sublist.eq_of_length h4 h5.length_eq.symm).symm

/-- Test fixture: a parentless object `0` owning one child object `1`; both
are enrolled in the flat `engineObjects` list, as the engine does. -/
def childObj : EObj := .mk 1 0 0 0 0 0 true []

/-- Test fixture: see `childObj`. -/
def parentObj : EObj := .mk 0 0 0 0 0 0 false [childObj]

/-- A game `update()` under which object `0` destroys itself (the mark-only
destroy call sets its own flag) while every other object's update mutates
nothing. -/
def selfDestructUpd : ℕ → DSt → DSt :=
  fun i s => if i = 0 then (fun j => if j = 0 then true else s j) else s

/-- Claim C1 counterexample: object `0` destroys itself during its own
update, yet its child `1` still has its update callback invoked in the same
tick — the trace is `[0, 1]`, because `updateObject` tests `o.destroyed`
once on entry, before `o.update()` runs, and then unconditionally walks
`o.children`.  The final state confirms `0` did mark itself destroyed. -/
theorem self_destruct_still_updates_children :
    (engineUpdateObjects selfDestructUpd [parentObj, childObj] []
        (fun _ => false)).2.2 = [0, 1] ∧
      (engineUpdateObjects selfDestructUpd [parentObj, childObj] []
        (fun _ => false)).2.1 0 = true := by
  constructor <;>
    simp [engineUpdateObjects, updateRoots, updateObject, updateChildren,
      selfDestructUpd, parentObj, childObj, EObj.oid, EObj.hasParent]

/-- Claim C1 (amended): the registry checks an entity's destroyed flag at
the moment traversal reaches it; whenever an entity is already flagged
destroyed at that moment — e.g. it was destroyed before the pass, or by a
sibling's or ancestor's update callback executed earlier in the pass — then
neither its own update nor any descendant's update runs that tick
(regardless of the descendants' own flags), and the subtree leaves the
state untouched.  An entity that destroys itself during its own update
callback, however, still has its children traversed that same tick. -/
theorem destroyed_at_visit_skips_subtree (upd : ℕ → DSt → DSt) (o : EObj)
    (s : DSt) (h : s o.oid = true) : updateObject upd o s = (s, []) := by
  cases o with
  | mk i px py sx sy r hp cs =>
    rw [updateObject]
    simp only [EObj.oid] at h
    simp [h]

theorem destroyed_at_visit_skips_subtree_witness :
    ((fun _ => true) : DSt) parentObj.oid = true ∧
      updateObject selfDestructUpd parentObj (fun _ => true) = ((fun _ => true), []) :=
  ⟨rfl, destroyed_at_visit_skips_subtree selfDestructUpd parentObj (fun _ => true) rfl⟩

/-- Claim C7: the post-traversal sweep removes from both collections exactly
the entities whose destroyed flag is set in the post-traversal state,
preserving the relative order of survivors (the swept lists are sublists of
the originals), and no other modelled operation unlinks entities: the
render pass only permutes the `all` collection. -/
theorem sweep_removes_exactly_destroyed :
    ∀ (upd : ℕ → DSt → DSt) (all collide : List EObj) (s : DSt),
      (∀ o : EObj, o ∈ (engineUpdateObjects upd all collide s).1.1 ↔
        o ∈ all ∧ (engineUpdateObjects upd all collide s).2.1 o.oid = false) ∧
      ((engineUpdateObjects upd all collide s).1.1).Sublist all ∧
      (∀ o : EObj, o ∈ (engineUpdateObjects upd all collide s).1.2 ↔
        o ∈ collide ∧ (engineUpdateObjects upd all collide s).2.1 o.oid = false) ∧
      ((engineUpdateObjects upd all collide s).1.2).Sublist collide ∧
      (∀ l : List EObj, (engineRenderSort l).Perm l) := by
  intro upd all collide s
  refine ⟨?_, ?_, ?_, ?_, fun l => List.perm_insertionSort roLE l⟩
  · intro o
    simp [engineUpdateObjects, List.mem_filter]
  · exact List.filter_sublist all
  · intro o
    simp [engineUpdateObjects, List.mem_filter]
  · exact List.filter_sublist collide

/-- Claim C6: the render pass draws a list that is sorted ascending by
`renderOrder`; every drawn object has its destroyed flag unset (destroyed
but not-yet-reaped objects are skipped by the draw walk); the sort is
stable — within each draw-order tier the original relative order survives;
and the concrete enrollment `[renderOrder 3, 1, 2, 1]` (object ids
`1, 2, 3, 4`) draws as ids `[2, 4, 3, 1]`. -/
theorem render_pass_stable_sorted_skips_destroyed :
    (∀ (s : DSt) (l : List EObj), List.Sorted roLE (engineRenderDraw s l)) ∧
    (∀ (s : DSt) (l : List EObj),
      (engineRenderDraw s l).all (fun o => ! s o.oid) = true) ∧
    (∀ (l : List EObj) (k : ℤ),
      (engineRenderSort l).filter (fun o => o.renderOrder == k) =
        l.filter (fun o => o.renderOrder == k)) ∧
    (engineRenderDraw (fun _ => false)
        [EObj.mk 1 0 0 0 0 3 false [], EObj.mk 2 0 0 0 0 1 false [],
         EObj.mk 3 0 0 0 0 2 false [], EObj.mk 4 0 0 0 0 1 false []]).map EObj.oid
      = [2, 4, 3, 1] := by
  refine ⟨fun s l => ?_, fun s l => ?_, fun l k => ?_, by decide⟩
  · exact (List.sorted_insertionSort roLE l).filter _
  · rw [List.all_eq_true]
    intro o ho
    exact (List.mem_filter.mp ho).2
  · apply engineRenderSort_filter_stable
    intro a b ha hb
    have ha' : a.renderOrder = k := by simpa using ha
    have hb' : b.renderOrder = k := by simpa using hb
    show a.renderOrder ≤ b.renderOrder
    rw [ha', hb']

/-- Test fixtures for the render-reorder claim: three parentless objects
with draw keys `1`, `2`, `3`, enrolled in the order `3, 1, 2`. -/
def rootA : EObj := .mk 10 0 0 0 0 1 false []

/-- See `rootA`. -/
def rootB : EObj := .mk 20 0 0 0 0 2 false []

/-- See `rootA`. -/
def rootC : EObj := .mk 30 0 0 0 0 3 false []

/-- Claim C10: the render pass sorts the `all` collection in place — its
output `all` list is a permutation of the input, sorted ascending by
`renderOrder` — while the `collide` collection comes through untouched;
consequently an update pass run after a render visits parentless roots in
renderOrder-sorted order, not enrollment order: with enrollment
`[rootC, rootA, rootB]` the pre-render update trace is `[30, 10, 20]` but
the post-render update trace is `[10, 20, 30]`. -/
theorem render_sort_permanent_reorder :
    (∀ (s : DSt) (all collide : List EObj),
      ((engineRenderPass s all collide).1.1).Perm all ∧
      List.Sorted roLE (engineRenderPass s all collide).1.1 ∧
      (engineRenderPass s all collide).1.2 = collide) ∧
    (updateRoots (fun _ s => s) [rootC, rootA, rootB] (fun _ => false)).2
      = [30, 10, 20] ∧
    (updateRoots (fun _ s => s)
        ((engineRenderPass (fun _ => false) [rootC, rootA, rootB] []).1.1)
        (fun _ => false)).2 = [10, 20, 30] := by
  refine ⟨fun s all collide =>
    ⟨List.perm_insertionSort roLE all, List.sorted_insertionSort roLE all, rfl⟩, ?_, ?_⟩
  · simp [updateRoots, updateObject, updateChildren, rootA, rootB, rootC,
      EObj.hasParent, EObj.oid, EObj.children]
  · have hsort : (engineRenderPass (fun _ => false) [rootC, rootA, rootB] []).1.1
        = [rootA, rootB, rootC] := by rfl
    rw [hsort]
    simp [updateRoots, updateObject, updateChildren, rootA, rootB, rootC,
      EObj.hasParent, EObj.oid, EObj.children]

/-- Test fixture: a zero-size entity sitting exactly at the query point. -/
def originPoint : EObj := .mk 10 0 0 0 0 0 false []

/-- Test fixture: a unit-size entity offset `1/10` from the query point on
the x axis. -/
def offsetUnitBox : EObj := .mk 11 (1/10) 0 1 1 0 false []

/-- Claim C4 counterexample: a zero-size box query at `P = (0,0)` does not
visit the zero-size entity exactly coincident with `P` (the strict overlap
test `0 < 0` fails), yet does visit a unit-size entity offset a positive
distance `1/10` from `P` (since `1/10 < (0+1)/2`): the visited list is
exactly `[11]`. -/
theorem zero_box_query_counterexample :
    (forEachObject 0 0 (.box 0 0) [originPoint, offsetUnitBox]
        [originPoint, offsetUnitBox] true).map EObj.oid = [11] := by
  norm_num [forEachObject, regionMatches, isOverlapping, originPoint, offsetUnitBox,
    EObj.posX, EObj.posY, EObj.sizeX, EObj.sizeY, EObj.oid, List.filter, abs]

/-- Claim C4 (amended): under the strict AABB rule, a zero-size box query at
`P` visits exactly the entities whose center is, on each axis, strictly
within half the entity's own size of `P` — the query box contributes no
extent.  An entity exactly coincident with `P` is therefore visited iff its
size is positive on both axes (a zero-size coincident entity is excluded),
and an entity of positive size is visited at any offset strictly below half
its size, not excluded at every positive offset. -/
theorem zero_box_query_characterization :
    ∀ (px py : ℚ) (all collide : List EObj) (b : Bool) (o : EObj),
      o ∈ forEachObject px py (.box 0 0) all collide b ↔
        o ∈ (if b then collide else all) ∧
          |px - o.posX| < o.sizeX / 2 ∧ |py - o.posY| < o.sizeY / 2 := by
  intro px py all collide b o
  simp [forEachObject, regionMatches, isOverlapping, List.mem_filter, and_assoc]

/-- Test fixture: a lone collidable entity for the malformed-region and
destroyed-query claims. -/
def loneObj : EObj := .mk 20 0 0 1 1 0 false []

/-- Claim C5 counterexample: a truthy malformed region (neither a two-axis
box nor a numeric radius, e.g. a non-numeric string) reaches the radius
branch, where `size**2` is `NaN` and every comparison fails, so the query
visits no entity at all — the opposite of the claimed visit-all
degradation — even though the collection holds one entity. -/
theorem malformed_region_empty_counterexample :
    (forEachObject 0 0 .otherTruthy [loneObj] [loneObj] true).length = 0 ∧
      ([loneObj] : List EObj).length = 1 := by
  exact ⟨rfl, rfl⟩

/-- Claim C5 (amended): in the release build only a falsy region argument
degrades to the unconditional visit-all behavior; every truthy malformed
region falls through to the radius branch, whose `NaN` squared radius fails
every comparison, so the query silently returns an empty result set. -/
theorem malformed_region_query_behavior :
    (∀ (px py : ℚ) (all collide : List EObj) (b : Bool),
      forEachObject px py .otherTruthy all collide b = []) ∧
    (∀ (px py : ℚ) (all collide : List EObj) (b : Bool),
      forEachObject px py .falsy all collide b = (if b then collide else all)) := by
  constructor <;> intro px py all collide b <;>
    simp [forEachObject, regionMatches]

/-- Claim C9: `forEachObject` applies no destroyed-flag filter: any entity
of the selected collection whose position matches the region is visited
even while its destroyed flag is set (marked but not yet reaped), for every
region kind and either collection — unlike the render draw walk, which
never draws an entity whose flag is set. -/
theorem query_ignores_destroyed_flag (px py : ℚ) (r : Region)
    (all collide : List EObj) (b : Bool) (o : EObj) (s : DSt) (l : List EObj)
    (hmem : o ∈ (if b then collide else all))
    (hmatch : regionMatches px py r o = true)
    (hdes : s o.oid = true) :
    o ∈ forEachObject px py r all collide b ∧ o ∉ engineRenderDraw s l := by
  constructor
  · exact List.mem_filter.mpr ⟨hmem, hmatch⟩
  · intro hin
    have hin' : o ∈ (engineRenderSort l).filter (fun o => ! s o.oid) := hin
    have h := (List.mem_filter.mp hin').2
    rw [hdes] at h
    simp at h

theorem query_ignores_destroyed_flag_witness :
    loneObj ∈ (if true then [loneObj] else ([] : List EObj)) ∧
      regionMatches 0 0 .falsy loneObj = true ∧
      ((fun _ => true) : DSt) loneObj.oid = true ∧
      (loneObj ∈ forEachObject 0 0 .falsy [] [loneObj] true ∧
        loneObj ∉ engineRenderDraw (fun _ => true) [loneObj]) :=
  ⟨by simp, rfl, rfl,
    query_ignores_destroyed_flag 0 0 .falsy [] [loneObj] true loneObj
      (fun _ => true) [loneObj] (by simp) rfl rfl⟩

end SpaceHuggers
